import Mathlib

/-!
Verification development for the request-logger plugin
(src/packages/server/src/plugins/request-logger.plugin.ts).

The plugin is a Fastify interceptor that captures chat-completion requests
and responses into an append-only JSONL log.  We give a shallow embedding of
its data model and operations: JavaScript strings are modelled as lists of
characters (`JStr`), JSON values as the inductive `JVal`, `JSON.parse` as an
executable fuel-based parser, and the three Fastify hooks (preHandler,
onSend, onError) as pure functions from request data and outcome to the list
of records appended to the log.
-/

namespace RequestLogger

/-- JavaScript strings are modelled as lists of characters. -/
abbrev JStr := List Char

/-- JSON values, as produced by JSON.parse.  Numbers are kept exactly as a
decimal mantissa and exponent (value = m * 10 ^ e). -/
inductive JVal where
  | null : JVal
  | jbool : Bool → JVal
  | jnum : Int → Int → JVal
  | jstr : JStr → JVal
  | jarr : List JVal → JVal
  | jobj : List (JStr × JVal) → JVal

mutual

/-- Boolean structural equality on JSON values (deriving cannot handle the
nested inductive, so decidable equality is built by hand). -/
def beqJ : JVal → JVal → Bool
  | JVal.null, JVal.null => true
  | JVal.jbool a, JVal.jbool b => a == b
  | JVal.jnum m1 e1, JVal.jnum m2 e2 => m1 == m2 && e1 == e2
  | JVal.jstr a, JVal.jstr b => a == b
  | JVal.jarr xs, JVal.jarr ys => beqJList xs ys
  | JVal.jobj fs, JVal.jobj gs => beqJFields fs gs
  | _, _ => false

def beqJList : List JVal → List JVal → Bool
  | [], [] => true
  | x :: xs, y :: ys => beqJ x y && beqJList xs ys
  | _, _ => false

def beqJFields : List (JStr × JVal) → List (JStr × JVal) → Bool
  | [], [] => true
  | (k1, v1) :: fs, (k2, v2) :: gs => k1 == k2 && beqJ v1 v2 && beqJFields fs gs
  | _, _ => false

end

mutual

theorem beqJ_refl : ∀ a, beqJ a a = true
  | JVal.null => rfl
  | JVal.jbool b => by simp [beqJ]
  | JVal.jnum m e => by simp [beqJ]
  | JVal.jstr s => by simp [beqJ]
  | JVal.jarr xs => by simpa [beqJ] using beqJList_refl xs
  | JVal.jobj fs => by simpa [beqJ] using beqJFields_refl fs

theorem beqJList_refl : ∀ xs, beqJList xs xs = true
  | [] => rfl
  | x :: xs => by simp [beqJList, beqJ_refl x, beqJList_refl xs]

theorem beqJFields_refl : ∀ fs, beqJFields fs fs = true
  | [] => rfl
  | (k, v) :: fs => by simp [beqJFields, beqJ_refl v, beqJFields_refl fs]

end

mutual

theorem eq_of_beqJ : ∀ a b, beqJ a b = true → a = b
  | JVal.null, JVal.null, _ => rfl
  | JVal.jbool a, JVal.jbool b, h => by
    simp only [beqJ, beq_iff_eq] at h
    rw [h]
  | JVal.jnum m1 e1, JVal.jnum m2 e2, h => by
    simp only [beqJ, Bool.and_eq_true, beq_iff_eq] at h
    rw [h.1, h.2]
  | JVal.jstr a, JVal.jstr b, h => by
    simp only [beqJ, beq_iff_eq] at h
    rw [h]
  | JVal.jarr xs, JVal.jarr ys, h => by
    rw [eq_of_beqJList xs ys (by simpa [beqJ] using h)]
  | JVal.jobj fs, JVal.jobj gs, h => by
    rw [eq_of_beqJFields fs gs (by simpa [beqJ] using h)]

theorem eq_of_beqJList : ∀ xs ys, beqJList xs ys = true → xs = ys
  | [], [], _ => rfl
  | x :: xs, y :: ys, h => by
    simp only [beqJList, Bool.and_eq_true] at h
    rw [eq_of_beqJ x y h.1, eq_of_beqJList xs ys h.2]

theorem eq_of_beqJFields : ∀ fs gs, beqJFields fs gs = true → fs = gs
  | [], [], _ => rfl
  | (k1, v1) :: fs, (k2, v2) :: gs, h => by
    simp only [beqJFields, Bool.and_eq_true, beq_iff_eq] at h
    rw [h.1.1, eq_of_beqJ v1 v2 h.1.2, eq_of_beqJFields fs gs h.2]

end

instance : DecidableEq JVal := fun a b =>
  decidable_of_iff (beqJ a b = true)
    ⟨eq_of_beqJ a b, fun h => h ▸ beqJ_refl a⟩

/-- Last-binding-wins field lookup: JSON.parse keeps the final value of a
duplicated object key, so lookup prefers the rightmost binding. -/
def lookupLast : List (JStr × JVal) → JStr → Option JVal
  | [], _ => none
  | (k', v) :: rest, k =>
    match lookupLast rest k with
    | some r => some r
    | none => if k' = k then some v else none

/-- JavaScript property access `v.k`: a field of an object, `undefined`
(`none`) otherwise. -/
def jsGet (v : JVal) (k : JStr) : Option JVal :=
  match v with
  | JVal.jobj fs => lookupLast fs k
  | _ => none

/-- Optional-chaining access `o?.k`. -/
def optGet (o : Option JVal) (k : JStr) : Option JVal :=
  o.bind (fun v => jsGet v k)

/-- Two-step optional access `v.k1?.k2`. -/
def jsGet2 (v : JVal) (k1 k2 : JStr) : Option JVal :=
  optGet (jsGet v k1) k2

/-- JavaScript truthiness of a possibly-undefined value. -/
def truthy : Option JVal → Bool
  | none => false
  | some JVal.null => false
  | some (JVal.jbool b) => b
  | some (JVal.jnum m _) => m != 0
  | some (JVal.jstr s) => !s.isEmpty
  | some (JVal.jarr _) => true
  | some (JVal.jobj _) => true

/-- Object literal construction where a key whose value is `undefined` is
dropped; this matches what JSON.stringify makes of such a key in the
serialized log record. -/
def mkObj (fs : List (JStr × Option JVal)) : JVal :=
  JVal.jobj (fs.filterMap (fun p => p.2.map (fun v => (p.1, v))))

/-! ### A model of JSON.parse -/

/-- The JSON whitespace characters. -/
def isJsonWs (c : Char) : Bool :=
  c = ' ' || c = '\t' || c = '\n' || c = '\r'

def skipWs : JStr → JStr
  | [] => []
  | c :: cs => if isJsonWs c then skipWs cs else c :: cs

def digitVal (c : Char) : Nat := c.toNat - '0'.toNat

/-- Value of one hexadecimal digit (code points written in decimal:
digits are 48-57, lowercase a-f are 97-102, uppercase A-F are 65-70). -/
def hexVal (c : Char) : Option Nat :=
  let n := c.toNat
  if 48 ≤ n ∧ n ≤ 57 then some (n - 48)
  else if 97 ≤ n ∧ n ≤ 102 then some (n - 87)
  else if 65 ≤ n ∧ n ≤ 70 then some (n - 55)
  else none

def parseHex4 : JStr → Option (Nat × JStr)
  | h1 :: h2 :: h3 :: h4 :: rest =>
    match hexVal h1, hexVal h2, hexVal h3, hexVal h4 with
    | some w1, some w2, some w3, some w4 =>
      some (w1 * 4096 + w2 * 256 + w3 * 16 + w4, rest)
    | _, _, _, _ => none
  | _ => none

/-- UTF-16 surrogate ranges, in decimal: high surrogates are
55296-56319, low surrogates are 56320-57343. -/
def isHighSurrogate (n : Nat) : Bool := 55296 ≤ n && n ≤ 56319

def isLowSurrogate (n : Nat) : Bool := 56320 ≤ n && n ≤ 57343

/-- Code point of a surrogate pair: 65536 plus the high offset shifted by
ten bits plus the low offset. -/
def combineSurrogates (hi lo : Nat) : Nat :=
  65536 + (hi - 55296) * 1024 + (lo - 56320)

/-- Body of a JSON string literal, after the opening quote: returns the
decoded characters and the input remaining after the closing quote.
A surrogate escape pair is combined into one code point; a lone surrogate
(which a JavaScript string can hold but a Lean `Char` cannot) degrades to
the default character. -/
def parseStrBody : Nat → JStr → Option (JStr × JStr)
  | 0, _ => none
  | _, [] => none
  | fuel + 1, c :: cs =>
    if c = '"' then some ([], cs)
    else if c = '\\' then
      match cs with
      | [] => none
      | e :: cs2 =>
        if e = 'u' then
          match parseHex4 cs2 with
          | none => none
          | some (n, cs3) =>
            if isHighSurrogate n then
              match cs3 with
              | '\\' :: 'u' :: cs4 =>
                match parseHex4 cs4 with
                | some (m, cs5) =>
                  if isLowSurrogate m then
                    (parseStrBody fuel cs5).map
                      (fun p => (Char.ofNat (combineSurrogates n m) :: p.1, p.2))
                  else
                    (parseStrBody fuel cs3).map (fun p => (Char.ofNat n :: p.1, p.2))
                | none =>
                  (parseStrBody fuel cs3).map (fun p => (Char.ofNat n :: p.1, p.2))
              | _ =>
                (parseStrBody fuel cs3).map (fun p => (Char.ofNat n :: p.1, p.2))
            else
              (parseStrBody fuel cs3).map (fun p => (Char.ofNat n :: p.1, p.2))
        else
          let esc : Option Char :=
            if e = '"' then some '"'
            else if e = '\\' then some '\\'
            else if e = '/' then some '/'
            else if e = 'b' then some '\x08'
            else if e = 'f' then some '\x0c'
            else if e = 'n' then some '\n'
            else if e = 'r' then some '\r'
            else if e = 't' then some '\t'
            else none
          match esc with
          | some ch => (parseStrBody fuel cs2).map (fun p => (ch :: p.1, p.2))
          | none => none
    else if c.toNat < 0x20 then none
    else (parseStrBody fuel cs).map (fun p => (c :: p.1, p.2))

/-- Longest digit run at the head of the input. -/
def takeDigits : JStr → JStr × JStr
  | [] => ([], [])
  | c :: cs =>
    if c.isDigit then
      let p := takeDigits cs
      (c :: p.1, p.2)
    else ([], c :: cs)

def digitsToNat (ds : JStr) : Nat :=
  List.foldl (fun acc c => acc * 10 + digitVal c) 0 ds

/-- JSON number grammar.  A leading 0 consumes only itself, so an illegal
literal such as 01 leaves trailing input and is rejected at the enclosing
level, as JSON.parse rejects it. -/
def parseNum (s : JStr) : Option (JVal × JStr) :=
  let signed : Bool × JStr :=
    match s with
    | '-' :: t => (true, t)
    | _ => (false, s)
  let neg := signed.1
  let s1 := signed.2
  let intPart : Option (JStr × JStr) :=
    match s1 with
    | '0' :: t => some (['0'], t)
    | c :: t => if c.isDigit then some (takeDigits (c :: t)) else none
    | [] => none
  match intPart with
  | none => none
  | some (ids, r1) =>
    let fracPart : Option (JStr × JStr) :=
      match r1 with
      | '.' :: t =>
        let p := takeDigits t
        if p.1.isEmpty then none else some (p.1, p.2)
      | _ => some ([], r1)
    match fracPart with
    | none => none
    | some (fds, r2) =>
      let expPart : Option (Int × JStr) :=
        match r2 with
        | 'e' :: t | 'E' :: t =>
          let se : Bool × JStr :=
            match t with
            | '+' :: u => (false, u)
            | '-' :: u => (true, u)
            | _ => (false, t)
          let p := takeDigits se.2
          if p.1.isEmpty then none
          else some ((if se.1 then -(digitsToNat p.1 : Int) else (digitsToNat p.1 : Int)), p.2)
        | _ => some (0, r2)
      match expPart with
      | none => none
      | some (ex, r3) =>
        let mant : Int := (digitsToNat (ids ++ fds) : Int)
        some (JVal.jnum (if neg then -mant else mant) (ex - fds.length), r3)

mutual

/-- One JSON value with leading whitespace allowed; fuel bounds the nesting
depth (each level consumes at least one character, so fuel = input length + 1
always suffices). -/
def parseVal : Nat → JStr → Option (JVal × JStr)
  | 0, _ => none
  | fuel + 1, s =>
    match skipWs s with
    | [] => none
    | c :: cs =>
      if c = '\x7b' then
        match skipWs cs with
        | '\x7d' :: rest => some (JVal.jobj [], rest)
        | _ => (parseMembers fuel cs).map (fun p => (JVal.jobj p.1, p.2))
      else if c = '[' then
        match skipWs cs with
        | ']' :: rest => some (JVal.jarr [], rest)
        | _ => (parseElems fuel cs).map (fun p => (JVal.jarr p.1, p.2))
      else if c = '"' then
        (parseStrBody (cs.length + 1) cs).map (fun p => (JVal.jstr p.1, p.2))
      else if c = 't' then
        match cs with
        | 'r' :: 'u' :: 'e' :: rest => some (JVal.jbool true, rest)
        | _ => none
      else if c = 'f' then
        match cs with
        | 'a' :: 'l' :: 's' :: 'e' :: rest => some (JVal.jbool false, rest)
        | _ => none
      else if c = 'n' then
        match cs with
        | 'u' :: 'l' :: 'l' :: rest => some (JVal.null, rest)
        | _ => none
      else if c.isDigit || c = '-' then parseNum (c :: cs)
      else none

/-- Nonempty member list of a JSON object, expecting a key next. -/
def parseMembers : Nat → JStr → Option (List (JStr × JVal) × JStr)
  | 0, _ => none
  | fuel + 1, s =>
    match skipWs s with
    | '"' :: t =>
      match parseStrBody (t.length + 1) t with
      | none => none
      | some (key, r1) =>
        match skipWs r1 with
        | ':' :: r2 =>
          match parseVal fuel r2 with
          | none => none
          | some (v, r3) =>
            match skipWs r3 with
            | ',' :: r4 =>
              (parseMembers fuel r4).map (fun p => ((key, v) :: p.1, p.2))
            | '\x7d' :: r4 => some ([(key, v)], r4)
            | _ => none
        | _ => none
    | _ => none

/-- Nonempty element list of a JSON array. -/
def parseElems : Nat → JStr → Option (List JVal × JStr)
  | 0, _ => none
  | fuel + 1, s =>
    match parseVal fuel s with
    | none => none
    | some (v, r1) =>
      match skipWs r1 with
      | ',' :: r2 => (parseElems fuel r2).map (fun p => (v :: p.1, p.2))
      | ']' :: r2 => some ([v], r2)
      | _ => none

end

/-- Model of JSON.parse: a single value with surrounding whitespace; anything
else (including trailing input) is a SyntaxError, i.e. `none`. -/
def jsonParse (s : JStr) : Option JVal :=
  match parseVal (s.length + 1) s with
  | some (v, rest) => if skipWs rest = [] then some v else none
  | none => none

/-! ### JavaScript string coercion

Needed to model the accumulations `fullText += data.delta.text` and
`Array.prototype.join`, whose operands are coerced with String(...). -/

/-- Decimal digits of a natural number. -/
def natDigits (n : Nat) : JStr := Nat.toDigits 10 n

def intToStr (i : Int) : JStr :=
  if i < 0 then '-' :: natDigits i.natAbs else natDigits i.natAbs

/-- Rendering of the number m * 10 ^ e.  This approximates JavaScript
Number#toString: it does not reproduce the exponential form used for very
large or very small magnitudes, nor does it strip trailing fraction zeros;
only the exotic case of a non-string text delta depends on it. -/
def jnumToStr (m e : Int) : JStr :=
  if 0 ≤ e then intToStr m ++ List.replicate e.toNat '0'
  else
    let ds := natDigits m.natAbs
    let k := e.natAbs
    let ds' := if ds.length ≤ k then List.replicate (k + 1 - ds.length) '0' ++ ds else ds
    (if m < 0 then ['-'] else []) ++ ds'.take (ds'.length - k) ++ '.' :: ds'.drop (ds'.length - k)

mutual

/-- JavaScript String(...) coercion of a JSON value. -/
def jsToString : JVal → JStr
  | JVal.null => "null".data
  | JVal.jbool true => "true".data
  | JVal.jbool false => "false".data
  | JVal.jnum m e => jnumToStr m e
  | JVal.jstr s => s
  | JVal.jarr xs => jsArrJoin xs
  | JVal.jobj _ => "[object Object]".data

/-- Array.prototype.toString: elements joined with commas, null rendered
as the empty string. -/
def jsArrJoin : List JVal → JStr
  | [] => []
  | x :: rest =>
    (match x with
     | JVal.null => []
     | v => jsToString v) ++
    (match rest with
     | [] => []
     | _ => ',' :: jsArrJoin rest)

end

/-- Coercion of a possibly-undefined value, as in string concatenation. -/
def jsToStringOpt : Option JVal → JStr
  | some v => jsToString v
  | none => "undefined".data

/-! ### The streaming collector (onSend hook, lines 177-254)

The background task reads the logging copy of the stream chunk by chunk,
splits each chunk on newlines, and interprets the lines that carry the
literal marker "data: ". -/

/-- Prepend a character to the first segment of a split. -/
def consHead (c : Char) : List JStr → List JStr
  | [] => [[c]]
  | l :: ls => (c :: l) :: ls

/-- JavaScript chunk.split('\n'): the segments of the chunk between
newlines; always nonempty, and a trailing newline yields a final empty
segment, exactly as in JavaScript. -/
def splitNl : JStr → List JStr
  | [] => [[]]
  | c :: rest => if c = '\n' then [] :: splitNl rest else consHead c (splitNl rest)

/-- The mutable locals of the background collection task together with the
content list of the log entry (which the task pushes tool_use blocks onto
while the stream is still running). -/
structure CollectorState where
  fullText : JStr
  lastUsage : Option JVal
  lastStopReason : Option JVal
  messageId : Option JVal
  model : Option JVal
  content : Option (List JVal)
deriving DecidableEq

def initCollector : CollectorState :=
  { fullText := [], lastUsage := none, lastStopReason := none,
    messageId := none, model := none, content := none }

/-- The guard line.startsWith('data: '). -/
def dataMarker : JStr := "data: ".data

/-- Strict comparison data.type === s for a string literal s. -/
def typeIs (data : JVal) (s : JStr) : Bool :=
  match jsGet data "type".data with
  | some (JVal.jstr t) => t = s
  | _ => false

/-- The body of the per-event conditionals (lines 199-230): message_start
overwrites the captured id and model; content_block_delta appends truthy
text to fullText; content_block_start with a tool_use block pushes a
projection onto the content list; message_delta overwrites usage and stop
reason when present. -/
def applyData (st : CollectorState) (data : JVal) : CollectorState :=
  let st1 :=
    if typeIs data "message_start".data then
      { st with messageId := jsGet2 data "message".data "id".data,
                model := jsGet2 data "message".data "model".data }
    else st
  let st2 :=
    if typeIs data "content_block_delta".data && truthy (jsGet2 data "delta".data "text".data) then
      { st1 with fullText := st1.fullText ++ jsToStringOpt (jsGet2 data "delta".data "text".data) }
    else st1
  let st3 :=
    if typeIs data "content_block_start".data &&
        (match jsGet2 data "content_block".data "type".data with
         | some (JVal.jstr t) => t = "tool_use".data
         | _ => false) then
      { st2 with content := some ((st2.content.getD []) ++
          [mkObj [("type".data, some (JVal.jstr "tool_use".data)),
                  ("name".data, jsGet2 data "content_block".data "name".data),
                  ("id".data, jsGet2 data "content_block".data "id".data)]]) }
    else st2
  if typeIs data "message_delta".data then
    { st3 with
      lastUsage := if truthy (jsGet data "usage".data) then jsGet data "usage".data else st3.lastUsage,
      lastStopReason :=
        if truthy (jsGet2 data "delta".data "stop_reason".data) then jsGet2 data "delta".data "stop_reason".data
        else st3.lastStopReason }
  else st3

/-- One line of the stream: lines carrying the "data: " marker have their
remainder JSON-parsed; a parse failure is swallowed (the catch on line 231)
and leaves the state unchanged. -/
def processLine (st : CollectorState) (line : JStr) : CollectorState :=
  if dataMarker.isPrefixOf line then
    match jsonParse (line.drop 6) with
    | some data => applyData st data
    | none => st
  else st

/-- One decoded chunk: split on newlines, each line processed in order. -/
def processChunk (st : CollectorState) (chunk : JStr) : CollectorState :=
  List.foldl processLine st (splitNl chunk)

/-- The whole logging copy of the stream, chunk by chunk. -/
def processStream (chunks : List JStr) : CollectorState :=
  List.foldl processChunk initCollector chunks

/-! ### The log record -/

/-- The response field of a RequestLogEntry.  `none` is an absent
(undefined) field, which JSON.stringify omits from the serialized record. -/
structure ResponseSummary where
  id : Option JVal := none
  model : Option JVal := none
  role : Option JVal := none
  content : Option JVal := none
  fullText : Option JVal := none
  stop_reason : Option JVal := none
  stop_sequence : Option JVal := none
  usage : Option JVal := none
deriving DecidableEq

/-- The two error projections a record can carry: the domain projection
written by the onSend object branch (lines 262-265) and the exception
projection written by the onError hook (lines 299-303). -/
inductive LogError where
  | domain : Option JVal → Option JVal → LogError
  | exceptional : Option JVal → Option JVal → Option JVal → LogError
deriving DecidableEq

/-- A sanitized message as built on lines 91-120: a role together with an
optional content projection (the content key is left undefined when the
original content is neither a string nor an array). -/
structure SanitizedMsg where
  role : Option JVal
  content : Option JVal
deriving DecidableEq

/-- The request projection of a log entry (lines 132-159). -/
structure SanitizedRequest where
  model : Option JVal
  max_tokens : Option JVal
  temperature : Option JVal
  stream : Option JVal
  messages : List SanitizedMsg
  system : Option JVal
  tools : Option (List JVal)
deriving DecidableEq

/-- One log record.  The timestamp and duration fields are wall-clock
readings and are not modelled. -/
structure LogEntry where
  sessionId : JStr
  preset : Option JVal
  request : SanitizedRequest
  response : ResponseSummary
  error : Option LogError
deriving DecidableEq

/-- The plugin options relevant to the hooks (the enabled switch and the
log-file path only govern registration and file bootstrapping). -/
structure LoggerOptions where
  includeSystemPrompt : Bool := true
  includeMessages : Bool := true
  includeTools : Bool := false
  maxMessageLength : Nat := 0
deriving DecidableEq

/-! ### The sanitizer (lines 81-121) -/

/-- Helper truncating long strings (lines 81-84). -/
def truncate (str : JStr) (maxLength : Nat) : JStr :=
  if maxLength = 0 ∨ str.length ≤ maxLength then str
  else str.take maxLength ++ "... [truncated, ".data ++
    natDigits (str.length - maxLength) ++ " more chars]".data

/-- The call truncate(item.text, maxMessageLength) on a truthy text value.
A string goes through truncate; with maxMessageLength = 0 the ternary on
line 103 skips truncate entirely and keeps the value verbatim; with
maxMessageLength > 0 a non-string makes the source throw a TypeError
inside String.prototype.substring, modelled as `none`.  (A non-string
whose length property happens to compare within the bound — such as an
array shorter than the bound — would escape the substring call and be
returned verbatim by the source; this model folds that fringe into the
throw, and the one theorem quantifying over request bodies, C1's, guards
itself with a does-not-throw hypothesis, so nothing is asserted about
those inputs.) -/
def truncVal (maxLen : Nat) (v : Option JVal) : Option JVal :=
  match v with
  | some (JVal.jstr s) => some (JVal.jstr (if maxLen > 0 then truncate s maxLen else s))
  | some w => if maxLen > 0 then none else some w
  | none => some JVal.null

/-- The per-block mapper of sanitizeMessages (lines 99-116): `none` is a
thrown TypeError.  Accessing item.type on a null element throws; every
other element only undergoes property accesses, which are safe, except a
truthy text handed to truncate (see truncVal). -/
def sanitizeItem (maxLen : Nat) (item : JVal) : Option JVal :=
  if item = JVal.null then none
  else if typeIs item "text".data && truthy (jsGet item "text".data) then
    (truncVal maxLen (jsGet item "text".data)).map (fun t =>
      mkObj [("type".data, some (JVal.jstr "text".data)),
             ("text".data, some t)])
  else if typeIs item "image".data then
    some (mkObj [("type".data, some (JVal.jstr "image".data)),
           ("source".data, some (JVal.jstr "[IMAGE_DATA_OMITTED]".data))])
  else if typeIs item "tool_use".data then
    some (mkObj [("type".data, some (JVal.jstr "tool_use".data)),
           ("name".data, jsGet item "name".data),
           ("id".data, jsGet item "id".data)])
  else if typeIs item "tool_result".data then
    some (mkObj [("type".data, some (JVal.jstr "tool_result".data)),
           ("tool_use_id".data, jsGet item "tool_use_id".data)])
  else some item

/-- The per-message mapper (lines 91-120): `none` is a thrown TypeError.
Reading msg.role on line 92 throws when the element is null; a string
content is truncated, an array content maps sanitizeItem (aborting at the
first throwing block), any other content leaves the content key unset. -/
def sanitizeMsg (maxLen : Nat) (msg : JVal) : Option SanitizedMsg :=
  if msg = JVal.null then none
  else
    match jsGet msg "content".data with
    | some (JVal.jstr s) =>
      some { role := jsGet msg "role".data,
             content := some (JVal.jstr (if maxLen > 0 then truncate s maxLen else s)) }
    | some (JVal.jarr items) =>
      (items.mapM (sanitizeItem maxLen)).map (fun l =>
        { role := jsGet msg "role".data, content := some (JVal.jarr l) })
    | _ => some { role := jsGet msg "role".data, content := none }

/-- sanitizeMessages (lines 87-121) on the raw messages value: the include
switch and the falsy check return the empty list before anything is
touched; after them the source calls messages.map, which throws (`none`)
on a truthy non-array value, and otherwise maps each element, aborting at
the first element whose sanitization throws. -/
def sanitizeMessages (opts : LoggerOptions) (messages : JVal) : Option (List SanitizedMsg) :=
  if !opts.includeMessages then some []
  else if !truthy (some messages) then some []
  else
    match messages with
    | JVal.jarr xs => xs.mapM (sanitizeMsg opts.maxMessageLength)
    | _ => none

/-! ### The preHandler hook (lines 124-163) -/

/-- Ambient request data read by the hooks. -/
structure ReqIn where
  pathname : Option JStr
  sessionId : Option JStr
  preset : Option JVal
  body : Option JVal

/-- The guard req.pathname?.endsWith('/v1/messages'). -/
def endpointMatch (pathname : Option JStr) : Bool :=
  match pathname with
  | some p => "/v1/messages".data.isSuffixOf p
  | none => false

/-- JavaScript v || d: the value when truthy, the default otherwise. -/
def jsOr (v : Option JVal) (d : JVal) : JVal :=
  match v with
  | some w => if truthy (some w) then w else d
  | none => d

/-- The system projection (lines 143-151): strings are truncated to twice
maxMessageLength, anything else is kept verbatim. -/
def sysVal (maxLen : Nat) (v : Option JVal) : JVal :=
  match v with
  | some (JVal.jstr s) => JVal.jstr (if maxLen > 0 then truncate s (maxLen * 2) else s)
  | some v => v
  | none => JVal.null

/-- The tools projection (lines 154-159): name and description only.
`none` is a thrown TypeError: a truthy non-array tools value has no .map,
and reading tool.name on a null element throws on line 156. -/
def toolsList : Option JVal → Option (List JVal)
  | some (JVal.jarr xs) =>
    xs.mapM (fun t =>
      if t = JVal.null then none
      else some (mkObj [("name".data, jsGet t "name".data),
                        ("description".data, jsGet t "description".data)]))
  | _ => none

/-- The request projection built on lines 128-159: `none` is a thrown
TypeError from the sanitizer chain.  The log-entry literal containing
sanitizeMessages is evaluated first (lines 128-140), then the system
block (143-151), then the tools block (154-159), so a messages throw
precedes a tools throw; which one fires is not observable in the model,
only that the hook threw. -/
def buildRequest (opts : LoggerOptions) (body : Option JVal) : Option SanitizedRequest :=
  match sanitizeMessages opts (jsOr (optGet body "messages".data) (JVal.jarr [])) with
  | none => none
  | some msgs =>
    let base : SanitizedRequest :=
      { model := optGet body "model".data,
        max_tokens := optGet body "max_tokens".data,
        temperature := optGet body "temperature".data,
        stream := optGet body "stream".data,
        messages := msgs,
        system := none,
        tools := none }
    let withSys :=
      if opts.includeSystemPrompt && truthy (optGet body "system".data) then
        { base with system := some (sysVal opts.maxMessageLength (optGet body "system".data)) }
      else base
    if opts.includeTools && truthy (optGet body "tools".data) then
      match toolsList (optGet body "tools".data) with
      | none => none
      | some ts => some { withSys with tools := some ts }
    else some withSys

/-- What the preHandler hook does to one request: nothing for a
non-matching path, a thrown TypeError when the sanitizer chain throws on
the body (req.logEntry is then never assigned on line 161), or a fresh
log entry attached to the request. -/
inductive HookResult where
  | noMatch : HookResult
  | threw : HookResult
  | attached : LogEntry → HookResult
deriving DecidableEq

/-- The preHandler hook: on the generation endpoint it builds and attaches
a fresh log entry — unless the sanitizer chain throws on the body first —
and on any other path it does nothing. -/
def preHandler (opts : LoggerOptions) (req : ReqIn) : HookResult :=
  if endpointMatch req.pathname then
    match buildRequest opts req.body with
    | none => HookResult.threw
    | some sreq =>
      HookResult.attached
        { sessionId :=
            match req.sessionId with
            | some s => if s.isEmpty then "unknown".data else s
            | none => "unknown".data,
          preset := req.preset,
          request := sreq,
          response := {},
          error := none }
  else HookResult.noMatch

/-! ### The onSend hook (lines 166-292) and onError hook (lines 295-307) -/

/-- The outbound payload seen by onSend: a live byte stream (modelled as
the list of its decoded chunks), an in-memory object, or anything else
(for which typeof payload === 'object' is false). -/
inductive JsPayload where
  | stream : List JStr → JsPayload
  | obj : JVal → JsPayload
  | raw : JStr → JsPayload
deriving DecidableEq

/-- ReadableStream.tee: two independent copies carrying the same chunk
sequence as the source. -/
def tee (chunks : List JStr) : List JStr × List JStr := (chunks, chunks)

/-- End of the background task (lines 238-246): the accumulated data is
written into the entry's response before the record is appended.  fullText
is always assigned (possibly the empty string); usage only when a truthy
usage was seen. -/
def collectorRun (entry : LogEntry) (chunks : List JStr) : LogEntry :=
    let st := List.foldl processChunk { initCollector with content :=
      match entry.response.content with
      | some (JVal.jarr xs) => some xs
      | some _ => some []
      | none => none } chunks
    { entry with response :=
      { entry.response with
        id := st.messageId,
        model := st.model,
        content := st.content.map JVal.jarr,
        fullText := some (JVal.jstr st.fullText),
        stop_reason := st.lastStopReason,
        usage :=
          match st.lastUsage with
          | some u => some u
          | none => entry.response.usage } }

/-- The joined element rendering of Array.prototype.join: undefined and
null become the empty string. -/
def joinElem : Option JVal → JStr
  | none => []
  | some JVal.null => []
  | some v => jsToString v

/-- Array.prototype.join('\n') over the mapped text fields. -/
def joinNlOpt : List (Option JVal) → JStr
  | [] => []
  | [x] => joinElem x
  | x :: y :: rest => joinElem x ++ '\n' :: joinNlOpt (y :: rest)

/-- Lines 276-280: the text fields of the text-typed content blocks,
joined with newlines. -/
def extractText (content : List JVal) : JStr :=
  joinNlOpt ((content.filter (fun item => typeIs item "text".data)).map
    (fun item => jsGet item "text".data))

/-- The non-streaming branch of onSend (lines 260-285): a truthy error
field yields the domain error projection and leaves the summary untouched;
otherwise the summary is copied field by field from the payload, with
fullText extracted from a content array when the joined text is truthy. -/
def applyDirect (entry : LogEntry) (v : JVal) : LogEntry :=
  if truthy (jsGet v "error".data) then
    { entry with error := some (LogError.domain
        (optGet (jsGet v "error".data) "type".data)
        (optGet (jsGet v "error".data) "message".data)) }
  else
    { entry with response :=
      { id := jsGet v "id".data,
        model := jsGet v "model".data,
        role := jsGet v "role".data,
        content := jsGet v "content".data,
        stop_reason := jsGet v "stop_reason".data,
        stop_sequence := jsGet v "stop_sequence".data,
        usage := jsGet v "usage".data,
        fullText :=
          match jsGet v "content".data with
          | some (JVal.jarr items) =>
            let t := extractText items
            if t.isEmpty then entry.response.fullText else some (JVal.jstr t)
          | _ => entry.response.fullText } }

/-- The onSend hook.  Returns the payload handed back to Fastify together
with the records appended to the log file by this call (for a stream, by
the detached background task: when that task throws, the catch on line 251
only emits a diagnostic and appends nothing).  The duration_ms assignment
is a wall-clock reading and is not modelled. -/
def onSend (entryOpt : Option LogEntry) (payload : JsPayload) (taskThrows : Bool) :
    JsPayload × List LogEntry :=
  match entryOpt with
  | none => (payload, [])
  | some entry =>
    match payload with
    | JsPayload.stream chunks =>
      let copies := tee chunks
      (JsPayload.stream copies.2,
        if taskThrows then [] else [collectorRun entry copies.1])
    | JsPayload.obj v => (payload, [applyDirect entry v])
    | JsPayload.raw _ => (payload, [])

/-- The error object received by the onError hook. -/
structure JsError where
  emsg : Option JVal
  estack : Option JVal
  ecode : Option JVal
deriving DecidableEq

/-- The onError hook: with a pending entry, the exception projection is
recorded and the record appended; without one, nothing happens. -/
def onError (entryOpt : Option LogEntry) (err : JsError) : List LogEntry :=
  match entryOpt with
  | some entry =>
    [{ entry with error := some (LogError.exceptional err.emsg err.estack err.ecode) }]
  | none => []

/-- How one request finishes: the onSend hook fires with a payload (and,
for streams, the background task either completes or throws), or request
processing aborts and the onError hook fires. -/
inductive Outcome where
  | send : JsPayload → Bool → Outcome
  | failed : JsError → Outcome
deriving DecidableEq

/-- The full per-request lifecycle of the plugin: preHandler attaches the
entry (or not), then the outcome drives onSend or onError; the result is
the list of records this request appends to the log file.  When the hook
throws, req.logEntry is never assigned: Fastify turns the throw into an
error reply, onError fires with no entry and appends nothing, and the
serialized error reply passes onSend with no entry — zero records. -/
def handleRequest (opts : LoggerOptions) (req : ReqIn) (oc : Outcome) : List LogEntry :=
  match preHandler opts req with
  | HookResult.threw => []
  | HookResult.noMatch =>
    match oc with
    | Outcome.send p t => (onSend none p t).2
    | Outcome.failed e => onError none e
  | HookResult.attached e =>
    match oc with
    | Outcome.send p t => (onSend (some e) p t).2
    | Outcome.failed er => onError (some e) er

/-! ### Derived notions used by the statements -/

/-- The text delta carried by one parsed event: the coerced delta text of a
content_block_delta event with truthy text, nothing otherwise. -/
def dataDelta (d : JVal) : JStr :=
  if typeIs d "content_block_delta".data && truthy (jsGet2 d "delta".data "text".data) then
    jsToStringOpt (jsGet2 d "delta".data "text".data)
  else []

/-- The text delta carried by one frame (line) of the logical stream. -/
def lineDelta (line : JStr) : JStr :=
  if dataMarker.isPrefixOf line then
    match jsonParse (line.drop 6) with
    | some d => dataDelta d
    | none => []
  else []

/-- The ordered concatenation of all text deltas carried by the frames of a
byte stream, reading the stream as one whole (every frame intact). -/
def streamDeltas (s : JStr) : JStr :=
  ((splitNl s).map lineDelta).flatten

/-- The text fields of the text-typed blocks of a content array, joined
with a newline between consecutive blocks (the wording of the claim about
the direct path). -/
def textBlocksJoined (items : List JVal) : JStr :=
  List.intercalate ['\n']
    ((items.filter (fun i => typeIs i "text".data)).map (fun i => joinElem (jsGet i "text".data)))

/-- All options at their defaults. -/
def defaultOptions : LoggerOptions := {}

/-- A request for a path other than the generation endpoint. -/
def otherReq : ReqIn :=
  { pathname := some "/v1/other".data
    sessionId := none
    preset := none
    body := none }

/-- A bare request for the generation endpoint. -/
def msgReq : ReqIn :=
  { pathname := some "/v1/messages".data
    sessionId := none
    preset := none
    body := none }

/-- A log entry as preHandler creates it for a request with no body. -/
def testEntry : LogEntry :=
  { sessionId := "unknown".data
    preset := none
    request :=
      { model := none
        max_tokens := none
        temperature := none
        stream := none
        messages := []
        system := none
        tools := none }
    response := {}
    error := none }

/-! ## Supporting lemmas -/

/-- applyData touches messageId only in its message_start branch, which
overwrites it unconditionally. -/
theorem applyData_messageId (st : CollectorState) (d : JVal) :
    (applyData st d).messageId =
      (if typeIs d "message_start".data then jsGet2 d "message".data "id".data
       else st.messageId) := by
  unfold applyData
  repeat' split
  all_goals simp_all

/-- applyData touches model only in its message_start branch, which
overwrites it unconditionally. -/
theorem applyData_model (st : CollectorState) (d : JVal) :
    (applyData st d).model =
      (if typeIs d "message_start".data then jsGet2 d "message".data "model".data
       else st.model) := by
  unfold applyData
  repeat' split
  all_goals simp_all

/-- splitNl always yields at least one segment. -/
theorem splitNl_ne_nil (s : JStr) : splitNl s ≠ [] := by
  cases s with
  | nil => simp [splitNl]
  | cons c rest =>
    rw [splitNl]
    split
    · simp
    · cases h : splitNl rest <;> simp [consHead]

/-- consHead distributes over an append with a nonempty left part. -/
theorem consHead_append (c : Char) (l m : List JStr) (h : l ≠ []) :
    consHead c (l ++ m) = consHead c l ++ m := by
  cases l with
  | nil => exact absurd rfl h
  | cons x xs => rfl

/-- Splitting on newlines distributes over a newline-separated append. -/
theorem splitNl_append_newline (a b : JStr) :
    splitNl (a ++ '\n' :: b) = splitNl a ++ splitNl b := by
  induction a with
  | nil => simp [splitNl]
  | cons c a' ih =>
    show splitNl (c :: (a' ++ '\n' :: b)) = splitNl (c :: a') ++ splitNl b
    rw [splitNl, splitNl]
    split
    · rw [ih]
      rfl
    · rw [ih, consHead_append c (splitNl a') (splitNl b) (splitNl_ne_nil a')]

/-- applyData extends fullText by exactly the text delta carried by the
event, and by nothing else. -/
theorem applyData_fullText (st : CollectorState) (d : JVal) :
    (applyData st d).fullText = st.fullText ++ dataDelta d := by
  unfold applyData dataDelta
  repeat' split
  all_goals simp_all

/-- processLine extends fullText by exactly the text delta carried by the
line. -/
theorem processLine_fullText (st : CollectorState) (line : JStr) :
    (processLine st line).fullText = st.fullText ++ lineDelta line := by
  unfold processLine lineDelta
  split
  · cases hp : jsonParse (line.drop 6) with
    | none => simp
    | some d => simp [applyData_fullText]
  · simp

/-- Folding lines accumulates the concatenation of their deltas. -/
theorem foldl_processLine_fullText (lines : List JStr) (st : CollectorState) :
    (List.foldl processLine st lines).fullText =
      st.fullText ++ (lines.map lineDelta).flatten := by
  induction lines generalizing st with
  | nil => simp
  | cons l ls ih =>
    rw [List.foldl_cons, ih, processLine_fullText]
    simp [List.append_assoc]

/-- Folding chunks accumulates the concatenation of the per-chunk delta
streams. -/
theorem foldl_processChunk_fullText (chunks : List JStr) (st : CollectorState) :
    (List.foldl processChunk st chunks).fullText =
      st.fullText ++ (chunks.map streamDeltas).flatten := by
  induction chunks generalizing st with
  | nil => simp
  | cons c cs ih =>
    rw [List.foldl_cons, ih]
    unfold processChunk
    rw [foldl_processLine_fullText]
    simp [streamDeltas, List.append_assoc]

theorem streamDeltas_nil : streamDeltas [] = [] := rfl

/-- The delta stream of a newline-separated append splits accordingly. -/
theorem streamDeltas_append_newline (a b : JStr) :
    streamDeltas (a ++ '\n' :: b) = streamDeltas a ++ streamDeltas b := by
  unfold streamDeltas
  rw [splitNl_append_newline]
  simp

/-- When every chunk except possibly the last ends with a newline — that
is, when no frame straddles a chunk boundary — reading the stream chunk by
chunk sees exactly the frames of the whole stream. -/
theorem streamDeltas_chunks (chunks : List JStr)
    (h : ∀ c ∈ chunks.dropLast, ∃ b, c = b ++ ['\n']) :
    (chunks.map streamDeltas).flatten = streamDeltas chunks.flatten := by
  induction chunks with
  | nil => rfl
  | cons c cs ih =>
    cases cs with
    | nil => simp [streamDeltas_nil]
    | cons c2 t =>
      obtain ⟨b, rfl⟩ : ∃ b, c = b ++ ['\n'] := by
        refine h c ?_
        rw [List.dropLast_cons₂]
        exact List.mem_cons_self _ _
      have ih' : ((c2 :: t).map streamDeltas).flatten = streamDeltas (c2 :: t).flatten := by
        refine ih (fun x hx => h x ?_)
        rw [List.dropLast_cons₂]
        exact List.mem_cons_of_mem _ hx
      rw [List.map_cons, List.flatten_cons, ih']
      have hl : streamDeltas (b ++ ['\n']) = streamDeltas b := by
        simpa [streamDeltas_nil] using streamDeltas_append_newline b []
      have hr : ((b ++ ['\n']) :: c2 :: t).flatten = b ++ '\n' :: ((c2 :: t).flatten) := by
        simp
      rw [hl, hr, streamDeltas_append_newline]

/-- joinNlOpt is the newline intercalation of the rendered elements. -/
theorem joinNlOpt_eq (xs : List (Option JVal)) :
    joinNlOpt xs = List.intercalate ['\n'] (xs.map joinElem) := by
  induction xs with
  | nil => rfl
  | cons x rest ih =>
    cases rest with
    | nil => simp [joinNlOpt, List.intercalate, List.intersperse]
    | cons y t =>
      rw [joinNlOpt, ih]
      simp [List.intercalate, List.intersperse]

/-- The one-shot text extraction of the direct path is the join described
by the claim. -/
theorem extractText_eq (items : List JVal) :
    extractText items = textBlocksJoined items := by
  unfold extractText textBlocksJoined
  rw [joinNlOpt_eq, List.map_map]
  rfl

/-! ## Claim theorems -/

/-- Claim C3: for every streaming response the onSend hook returns one of
the two identical copies produced by forking the stream — so the chunk
sequence handed to the caller is identical to the upstream one, whatever
the logging side does and whether or not the logging path fails — and for
non-streaming payloads the hook returns its payload unchanged. -/
theorem c3_passthrough (entryOpt : Option LogEntry) (p : JsPayload) (t : Bool) :
    (onSend entryOpt p t).1 = p ∧ ∀ chunks : List JStr, tee chunks = (chunks, chunks) := by
  refine ⟨?_, fun chunks => rfl⟩
  cases entryOpt with
  | none => rfl
  | some entry => cases p <;> simp [onSend, tee]

/-- Claim C4: a data frame whose body after the "data: " marker is invalid
JSON never raises out of the parser (processing is total and leaves the
collector state unchanged), contributes nothing to the response summary,
and every subsequent valid frame is still applied: deleting the bad frame
from the line sequence does not change the fold at all. -/
theorem c4_invalid_frame_skipped (st : CollectorState) (pre post : List JStr) (line : JStr)
    (hmark : dataMarker.isPrefixOf line = true)
    (hbad : jsonParse (line.drop 6) = none) :
    List.foldl processLine st (pre ++ line :: post) = List.foldl processLine st (pre ++ post) := by
  rw [List.foldl_append, List.foldl_append, List.foldl_cons]
  have hskip : processLine (List.foldl processLine st pre) line = List.foldl processLine st pre := by
    simp [processLine, hmark, hbad]
  rw [hskip]

/-- Witness for C4 at a concrete stream: a malformed frame between a
message_start frame and a content_block_delta frame is skipped and the
later valid frame still applies. -/
theorem c4_invalid_frame_skipped_witness :
    dataMarker.isPrefixOf "data: \x7binvalid".data = true ∧
    jsonParse (("data: \x7binvalid".data).drop 6) = none ∧
    List.foldl processLine initCollector
      ["data: \x7b\"type\":\"message_start\",\"message\":\x7b\"id\":\"x1\"\x7d\x7d".data,
       "data: \x7binvalid".data,
       "data: \x7b\"type\":\"content_block_delta\",\"delta\":\x7b\"text\":\"Hi\"\x7d\x7d".data] =
    List.foldl processLine initCollector
      ["data: \x7b\"type\":\"message_start\",\"message\":\x7b\"id\":\"x1\"\x7d\x7d".data,
       "data: \x7b\"type\":\"content_block_delta\",\"delta\":\x7b\"text\":\"Hi\"\x7d\x7d".data] :=
  ⟨by decide, by decide,
   c4_invalid_frame_skipped initCollector
     ["data: \x7b\"type\":\"message_start\",\"message\":\x7b\"id\":\"x1\"\x7d\x7d".data]
     ["data: \x7b\"type\":\"content_block_delta\",\"delta\":\x7b\"text\":\"Hi\"\x7d\x7d".data]
     "data: \x7binvalid".data (by decide) (by decide)⟩

/-- Claim C5: with maxMessageLength N > 0 and a text of length L > N, the
truncated text is the first N characters followed by the marker naming
exactly L - N more characters; with N = 0, or L within the bound, the text
is unchanged; and the sanitizer applies exactly this transformation to a
string message content. -/
theorem c5_truncation (s : JStr) (n : Nat) :
    (0 < n → n < s.length →
      truncate s n = s.take n ++ "... [truncated, ".data ++
        natDigits (s.length - n) ++ " more chars]".data) ∧
    (n = 0 ∨ s.length ≤ n → truncate s n = s) ∧
    (∀ msg : JVal, jsGet msg "content".data = some (JVal.jstr s) →
      ∃ sm, sanitizeMsg n msg = some sm ∧
        sm.content = some (JVal.jstr (truncate s n))) := by
  refine ⟨fun hn hl => ?_, fun h => ?_, fun msg hmsg => ?_⟩
  · rw [truncate, if_neg]
    push_neg
    omega
  · rw [truncate, if_pos]
    rcases h with h | h
    · exact Or.inl h
    · exact Or.inr h
  · have hne : ¬ msg = JVal.null := by
      intro he
      rw [he] at hmsg
      simp [jsGet] at hmsg
    refine ⟨{ role := jsGet msg "role".data,
              content := some (JVal.jstr (if n > 0 then truncate s n else s)) }, ?_, ?_⟩
    · rw [sanitizeMsg, if_neg hne]
      simp only [hmsg]
    · by_cases hn : n = 0
      · simp [hn, truncate]
      · simp [Nat.pos_of_ne_zero hn]

/-- Witness for C5: length 11 text with bound 5, bound 0, and the
sanitizer path. -/
theorem c5_truncation_witness :
    truncate "hello world".data 5 = ("hello".data ++ "... [truncated, ".data ++
      natDigits 6 ++ " more chars]".data) ∧
    truncate "hello world".data 0 = "hello world".data ∧
    (∃ sm, sanitizeMsg 5 (JVal.jobj [("role".data, JVal.jstr "user".data),
        ("content".data, JVal.jstr "hello world".data)]) = some sm ∧
      sm.content = some (JVal.jstr (truncate "hello world".data 5))) :=
  ⟨by
    have h := (c5_truncation "hello world".data 5).1 (by decide) (by decide)
    simpa using h,
   (c5_truncation "hello world".data 0).2.1 (Or.inl rfl),
   (c5_truncation "hello world".data 5).2.2 _ (by decide)⟩

/-- Claim C8: a request whose path does not end in the generation endpoint
gets no log entry from preHandler (the guard fails before the body is
touched, so nothing is built and nothing can throw), the onSend hook
returns its payload unchanged and appends nothing, the onError hook
appends nothing, and the whole lifecycle appends no record at all. -/
theorem c8_no_op_other_paths (opts : LoggerOptions) (req : ReqIn)
    (h : endpointMatch req.pathname = false) :
    preHandler opts req = HookResult.noMatch ∧
    (∀ (p : JsPayload) (t : Bool), onSend none p t = (p, [])) ∧
    (∀ e : JsError, onError none e = []) ∧
    (∀ oc : Outcome, handleRequest opts req oc = []) := by
  have hpre : preHandler opts req = HookResult.noMatch := by
    simp [preHandler, h]
  refine ⟨hpre, fun p t => rfl, fun e => rfl, fun oc => ?_⟩
  cases oc with
  | send p t => simp [handleRequest, hpre, onSend]
  | failed e => simp [handleRequest, hpre, onError]

/-- Witness for C8 at a request for a different path. -/
theorem c8_no_op_other_paths_witness :
    endpointMatch otherReq.pathname = false ∧
    preHandler defaultOptions otherReq = HookResult.noMatch :=
  ⟨by decide, (c8_no_op_other_paths defaultOptions otherReq (by decide)).1⟩

/-- Claim C10: a content block tagged text whose text field is absent or
the empty string fails the truthiness test of the text branch, matches no
other branch (its tag is text), and is therefore passed through the
sanitizer unchanged, extra fields included (it is an object, so the
mapper does not throw on it either). -/
theorem c10_empty_text_block_passthrough (maxLen : Nat) (item : JVal)
    (htype : jsGet item "type".data = some (JVal.jstr "text".data))
    (htext : jsGet item "text".data = none ∨ jsGet item "text".data = some (JVal.jstr [])) :
    sanitizeItem maxLen item = some item := by
  have hne : ¬ item = JVal.null := by
    intro he
    rw [he] at htype
    simp [jsGet] at htype
  have hti : ∀ s : JStr, typeIs item s = decide ("text".data = s) := by
    intro s
    unfold typeIs
    rw [htype]
  have htruthy : truthy (jsGet item "text".data) = false := by
    rcases htext with h | h <;> simp [h, truthy]
  rw [sanitizeItem, if_neg hne, hti "text".data, hti "image".data, hti "tool_use".data,
    hti "tool_result".data, htruthy]
  rfl

/-- Witness for C10: an empty-text block carrying an extra field survives
sanitization verbatim. -/
theorem c10_empty_text_block_passthrough_witness :
    sanitizeItem 5 (JVal.jobj [("type".data, JVal.jstr "text".data),
      ("text".data, JVal.jstr []), ("extra".data, JVal.jnum 42 0)]) =
    JVal.jobj [("type".data, JVal.jstr "text".data),
      ("text".data, JVal.jstr []), ("extra".data, JVal.jnum 42 0)] :=
  c10_empty_text_block_passthrough 5 _ (by decide) (Or.inr (by decide))

/-- Counterexample to claim C6 as stated: two message_start frames with
distinct ids and models leave the summary with the id and model of the
SECOND event, not the first — the capture is not guarded by "only if not
already set". -/
theorem c6_counterexample :
    (List.foldl processLine initCollector
      ["data: \x7b\"type\":\"message_start\",\"message\":\x7b\"id\":\"a1\",\"model\":\"m1\"\x7d\x7d".data,
       "data: \x7b\"type\":\"message_start\",\"message\":\x7b\"id\":\"a2\",\"model\":\"m2\"\x7d\x7d".data]).messageId
      = some (JVal.jstr "a2".data) ∧
    (List.foldl processLine initCollector
      ["data: \x7b\"type\":\"message_start\",\"message\":\x7b\"id\":\"a1\",\"model\":\"m1\"\x7d\x7d".data,
       "data: \x7b\"type\":\"message_start\",\"message\":\x7b\"id\":\"a2\",\"model\":\"m2\"\x7d\x7d".data]).model
      = some (JVal.jstr "m2".data) ∧
    some (JVal.jstr "a2".data) ≠ some (JVal.jstr "a1".data) := by
  refine ⟨by decide, by decide, by decide⟩

/-- Claim C6, amended: a message_start event captures the message id and
model unconditionally, overwriting any previously captured values; after
two message_start events the summary's id and model are those of the LAST
such event. -/
theorem c6_message_start_last_wins (st : CollectorState) (l1 l2 : JStr) (d1 d2 : JVal)
    (h1m : dataMarker.isPrefixOf l1 = true) (h1p : jsonParse (l1.drop 6) = some d1)
    (_h1t : typeIs d1 "message_start".data = true)
    (h2m : dataMarker.isPrefixOf l2 = true) (h2p : jsonParse (l2.drop 6) = some d2)
    (h2t : typeIs d2 "message_start".data = true) :
    (List.foldl processLine st [l1, l2]).messageId = jsGet2 d2 "message".data "id".data ∧
    (List.foldl processLine st [l1, l2]).model = jsGet2 d2 "message".data "model".data := by
  have e1 : List.foldl processLine st [l1, l2] = applyData (applyData st d1) d2 := by
    simp [List.foldl, processLine, h1m, h1p, h2m, h2p]
  rw [e1, applyData_messageId, applyData_model, if_pos h2t, if_pos h2t]
  exact ⟨rfl, rfl⟩

/-- Witness for the amended C6 at the concrete two-event stream. -/
theorem c6_message_start_last_wins_witness :
    (List.foldl processLine initCollector
      ["data: \x7b\"type\":\"message_start\",\"message\":\x7b\"id\":\"b1\"\x7d\x7d".data,
       "data: \x7b\"type\":\"message_start\",\"message\":\x7b\"id\":\"b2\"\x7d\x7d".data]).messageId
      = jsGet2 (JVal.jobj [("type".data, JVal.jstr "message_start".data),
          ("message".data, JVal.jobj [("id".data, JVal.jstr "b2".data)])])
          "message".data "id".data :=
  (c6_message_start_last_wins initCollector _ _
    (JVal.jobj [("type".data, JVal.jstr "message_start".data),
      ("message".data, JVal.jobj [("id".data, JVal.jstr "b1".data)])])
    (JVal.jobj [("type".data, JVal.jstr "message_start".data),
      ("message".data, JVal.jobj [("id".data, JVal.jstr "b2".data)])])
    (by decide) (by decide) (by decide) (by decide) (by decide) (by decide)).1

/-- Counterexample to claim C7 as stated: a payload carrying an error
field whose value is null (falsy) takes the success branch — no error
projection is recorded and the summary IS populated from the payload. -/
theorem c7_counterexample :
    jsGet (JVal.jobj [("error".data, JVal.null), ("id".data, JVal.jstr "x".data)])
      "error".data = some JVal.null ∧
    (applyDirect testEntry (JVal.jobj [("error".data, JVal.null),
      ("id".data, JVal.jstr "x".data)])).error = none ∧
    (applyDirect testEntry (JVal.jobj [("error".data, JVal.null),
      ("id".data, JVal.jstr "x".data)])).response.id = some (JVal.jstr "x".data) := by
  refine ⟨by decide, by decide, by decide⟩

/-- Claim C7, amended: a non-streaming object payload whose error field is
TRUTHY makes the record carry exactly the domain projection of the error's
type and message, with the response summary left untouched; a payload
whose error field is absent or falsy takes the success branch, leaves the
error slot unchanged, and copies id, model, role, content, stop_reason,
stop_sequence and usage straight from the payload without running the
streaming pipeline. -/
theorem c7_error_branch (entry : LogEntry) (v : JVal) :
    (truthy (jsGet v "error".data) = true →
      (applyDirect entry v).error = some (LogError.domain
        (optGet (jsGet v "error".data) "type".data)
        (optGet (jsGet v "error".data) "message".data)) ∧
      (applyDirect entry v).response = entry.response) ∧
    (truthy (jsGet v "error".data) = false →
      (applyDirect entry v).error = entry.error ∧
      (applyDirect entry v).response.id = jsGet v "id".data ∧
      (applyDirect entry v).response.model = jsGet v "model".data ∧
      (applyDirect entry v).response.role = jsGet v "role".data ∧
      (applyDirect entry v).response.content = jsGet v "content".data ∧
      (applyDirect entry v).response.stop_reason = jsGet v "stop_reason".data ∧
      (applyDirect entry v).response.stop_sequence = jsGet v "stop_sequence".data ∧
      (applyDirect entry v).response.usage = jsGet v "usage".data) := by
  unfold applyDirect
  constructor
  · intro h
    rw [if_pos h]
    exact ⟨rfl, rfl⟩
  · intro h
    rw [if_neg (by simp [h])]
    exact ⟨rfl, rfl, rfl, rfl, rfl, rfl, rfl, rfl⟩

/-- Witness for the amended C7: a truthy error payload gets the domain
projection and an untouched summary. -/
theorem c7_error_branch_witness :
    (applyDirect testEntry (JVal.jobj [("error".data, JVal.jobj
      [("type".data, JVal.jstr "overloaded_error".data),
       ("message".data, JVal.jstr "busy".data)])])).error =
      some (LogError.domain (some (JVal.jstr "overloaded_error".data))
        (some (JVal.jstr "busy".data))) ∧
    (applyDirect testEntry (JVal.jobj [("error".data, JVal.jobj
      [("type".data, JVal.jstr "overloaded_error".data),
       ("message".data, JVal.jstr "busy".data)])])).response = testEntry.response :=
  (c7_error_branch testEntry (JVal.jobj [("error".data, JVal.jobj
    [("type".data, JVal.jstr "overloaded_error".data),
     ("message".data, JVal.jstr "busy".data)])])).1 (by decide)

/-- Counterexample to claim C9 as stated: a content array of two
text-typed blocks with empty text joins to a single newline, which is a
non-empty string, so fullText IS recorded — the claim's "all text blocks
empty implies omitted" fails at two or more empty text blocks. -/
theorem c9_counterexample :
    (applyDirect testEntry (JVal.jobj [("content".data, JVal.jarr
      [JVal.jobj [("type".data, JVal.jstr "text".data), ("text".data, JVal.jstr [])],
       JVal.jobj [("type".data, JVal.jstr "text".data),
         ("text".data, JVal.jstr [])]])])).response.fullText
      = some (JVal.jstr ['\n']) ∧ (['\n'] : JStr) ≠ [] := by
  refine ⟨by decide, by decide⟩

/-- Claim C9, amended: on the direct path with an array content and no
truthy error, fullText equals the newline-join of the text fields of the
text-typed blocks, and the field is omitted exactly when that joined
string is empty (no text blocks, or a single empty text block; two or
more empty text blocks join to a non-empty string of newlines and are
recorded). -/
theorem c9_direct_fullText (entry : LogEntry) (v : JVal) (items : List JVal)
    (herr : truthy (jsGet v "error".data) = false)
    (hc : jsGet v "content".data = some (JVal.jarr items))
    (hinit : entry.response.fullText = none) :
    (applyDirect entry v).response.fullText =
      (if textBlocksJoined items = [] then none
       else some (JVal.jstr (textBlocksJoined items))) := by
  unfold applyDirect
  rw [if_neg (by simp [herr])]
  simp only [hc, extractText_eq, hinit]
  rcases h : textBlocksJoined items with _ | _
  · simp [h]
  · simp [h]

/-- Witness for the amended C9: one non-empty and one empty text block. -/
theorem c9_direct_fullText_witness :
    (applyDirect testEntry (JVal.jobj [("content".data, JVal.jarr
      [JVal.jobj [("type".data, JVal.jstr "text".data),
        ("text".data, JVal.jstr "ok".data)]])])).response.fullText =
      (if textBlocksJoined [JVal.jobj [("type".data, JVal.jstr "text".data),
          ("text".data, JVal.jstr "ok".data)]] = [] then none
       else some (JVal.jstr (textBlocksJoined
         [JVal.jobj [("type".data, JVal.jstr "text".data),
           ("text".data, JVal.jstr "ok".data)]]))) :=
  c9_direct_fullText testEntry _ _ (by decide) (by decide) (by decide)

/-- Counterexample to claim C1 as stated: a request that reaches the
capture hook (its entry is attached, nothing threw) and answers with a
stream whose background accumulation task throws appends ZERO records,
not exactly one — the catch block only emits a diagnostic. -/
theorem c1_counterexample :
    preHandler defaultOptions msgReq = HookResult.attached testEntry ∧
    handleRequest defaultOptions msgReq
      (Outcome.send (JsPayload.stream ["data: x".data]) true) = [] := by
  refine ⟨by decide, by decide⟩

/-- Claim C1, amended: for every request that reaches the capture hook and
whose body the sanitizer chain accepts without throwing (a malformed body
such as a truthy non-array messages value or a null message element makes
the preHandler hook throw before the entry is attached, and such a
request appends nothing), exactly one record is appended for a direct
object payload (success or domain error), for a streaming payload whose
background task completes (including with zero valid events), and for an
upstream error before a response; but ZERO records are appended when the
background accumulation task throws (the failure is only logged
diagnostically) or when the payload is neither a stream nor an object;
never more than one. -/
theorem c1_append_count (opts : LoggerOptions) (req : ReqIn) (oc : Outcome)
    (h : endpointMatch req.pathname = true)
    (hok : preHandler opts req ≠ HookResult.threw) :
    (handleRequest opts req oc).length =
      (match oc with
       | Outcome.send (JsPayload.stream _) true => 0
       | Outcome.send (JsPayload.raw _) _ => 0
       | _ => 1) := by
  cases he : preHandler opts req with
  | noMatch =>
    rw [preHandler, if_pos h] at he
    cases hb : buildRequest opts req.body <;> rw [hb] at he <;> exact absurd he (by simp)
  | threw => exact absurd he hok
  | attached e =>
    cases oc with
    | send p t => cases p <;> cases t <;> simp [handleRequest, he, onSend]
    | failed err => simp [handleRequest, he, onError]

/-- Witness for the amended C1: a request whose hook attaches an entry
without throwing and answers with a direct object success appends exactly
one record. -/
theorem c1_append_count_witness :
    endpointMatch msgReq.pathname = true ∧
    preHandler defaultOptions msgReq ≠ HookResult.threw ∧
    (handleRequest defaultOptions msgReq
      (Outcome.send (JsPayload.obj (JVal.jobj [])) false)).length = 1 :=
  ⟨by decide, by decide, c1_append_count defaultOptions msgReq
    (Outcome.send (JsPayload.obj (JVal.jobj [])) false) (by decide) (by decide)⟩

/-- Counterexample to claim C2 as stated: a content_block_delta frame
split across two chunk boundaries is lost entirely — the collector splits
each chunk on newlines with no carry-over buffer, so neither half of the
frame parses — while the frames of the whole stream carry the delta Hi. -/
theorem c2_counterexample :
    (processStream
      ["data: \x7b\"type\":\"content_block_delta\",\"delta\":\x7b\"te".data,
       "xt\":\"Hi\"\x7d\x7d\n".data]).fullText = [] ∧
    streamDeltas ("data: \x7b\"type\":\"content_block_delta\",\"delta\":\x7b\"te".data ++
      "xt\":\"Hi\"\x7d\x7d\n".data) = "Hi".data ∧
    ([] : JStr) ≠ "Hi".data := by
  refine ⟨by decide, by decide, by decide⟩

/-- Claim C2, amended: for every streaming response and every chunking in
which no frame straddles a chunk boundary (each chunk except possibly the
last ends with a newline), the accumulated fullText equals the ordered
concatenation of every text delta carried by the stream's
content_block_delta frames, in arrival order, for any interleaving of
valid and malformed frames; a frame split across a chunk boundary,
however, is dropped. -/
theorem c2_chunking_fullText (chunks : List JStr)
    (h : ∀ c ∈ chunks.dropLast, ∃ b, c = b ++ ['\n']) :
    (processStream chunks).fullText = streamDeltas chunks.flatten := by
  unfold processStream
  rw [foldl_processChunk_fullText, streamDeltas_chunks chunks h]
  rfl

/-- Witness for the amended C2: a two-chunk stream whose first chunk ends
at a frame boundary accumulates exactly the deltas of the whole stream. -/
theorem c2_chunking_fullText_witness :
    (processStream
      ["data: \x7b\"type\":\"content_block_delta\",\"delta\":\x7b\"text\":\"Hi\"\x7d\x7d\n".data,
       "data: \x7b\"type\":\"content_block_delta\",\"delta\":\x7b\"text\":\" there\"\x7d\x7d\n".data]).fullText =
    streamDeltas
      ("data: \x7b\"type\":\"content_block_delta\",\"delta\":\x7b\"text\":\"Hi\"\x7d\x7d\n".data ++
       "data: \x7b\"type\":\"content_block_delta\",\"delta\":\x7b\"text\":\" there\"\x7d\x7d\n".data) := by
  have happ := c2_chunking_fullText
    ["data: \x7b\"type\":\"content_block_delta\",\"delta\":\x7b\"text\":\"Hi\"\x7d\x7d\n".data,
     "data: \x7b\"type\":\"content_block_delta\",\"delta\":\x7b\"text\":\" there\"\x7d\x7d\n".data]
    (by
      intro c hc
      refine ⟨"data: \x7b\"type\":\"content_block_delta\",\"delta\":\x7b\"text\":\"Hi\"\x7d\x7d".data, ?_⟩
      have hc' : c =
          "data: \x7b\"type\":\"content_block_delta\",\"delta\":\x7b\"text\":\"Hi\"\x7d\x7d\n".data := by
        simpa using hc
      rw [hc']
      decide)
  simpa using happ

end RequestLogger
